import Mathlib

/-!
Verification development for the heart-rate stream-analytics consumer
(`consumers/csv_consumer_vega.py`).

Shallow embedding conventions:
* Python floats (heart rates, thresholds) are modelled by `ℚ`; every
  operation the code performs on them (comparisons, subtraction, max, min)
  is exact on the values in scope.
* The result of `json.loads` is modelled by `PyVal`.  An input string that
  is not valid JSON is modelled as `Option.none` handed to
  `process_message` (the `json.JSONDecodeError` branch); a string that
  parses is `some v`.  A decoded JSON object is `PyVal.dict fields` with
  its final key/value entries (Python keeps the last duplicate key, so the
  decoded dict has distinct keys).
* Python exceptions are modelled by `Except` with an explicit error value
  carrying the window state at raise time (`deque` mutation is in place,
  so state mutated before a raise survives the raise).
* The environment getters (`os.getenv` wrappers) are modelled by an `Env`
  record holding the already-parsed tunables; each call of the code that
  re-reads the environment receives the `Env` in force at that call.
* Log output is modelled as a list of `Event` values: only the events the
  specification talks about (alerts, stall detection, error logs) are
  recorded.
-/

namespace HeartMonitor

/-- Values produced by decoding a JSON message in Python: `null`, booleans,
numbers, strings and objects.  JSON arrays are irrelevant to every claim
(they behave like any other non-dict value at the `data.get` call) and are
represented by `str`-like opaque handling via the other constructors being
absent; the non-dict behaviour is exercised through `num` and `str`. -/
inductive PyVal where
  | pyNone : PyVal
  | pyBool : Bool → PyVal
  | num : ℚ → PyVal
  | str : String → PyVal
  | dict : List (String × PyVal) → PyVal

/-- Python `x is None`. -/
def isPyNone : PyVal → Bool
  | .pyNone => true
  | _ => false

/-- Python `d.get(key)` on a decoded JSON object: the stored value when the
key is present, `None` otherwise.  A stored JSON `null` is also `None`. -/
def pyGet : List (String × PyVal) → String → PyVal
  | [], _ => .pyNone
  | (k, v) :: rest, key => if k = key then v else pyGet rest key

/-- The numeric value a `PyVal` carries for an order comparison against a
float.  Python booleans are numbers (`True = 1`, `False = 0`); every other
non-number raises `TypeError` when compared with a float, modelled as
`none`. -/
def pyToNum : PyVal → Option ℚ
  | .num q => some q
  | .pyBool b => some (if b then 1 else 0)
  | _ => none

/-- Equality of `Except` results is decidable when both components are. -/
instance {ε α : Type} [DecidableEq ε] [DecidableEq α] :
    DecidableEq (Except ε α) := fun a b =>
  match a, b with
  | .ok x, .ok y =>
      if h : x = y then .isTrue (by rw [h]) else .isFalse (by simp [h])
  | .error x, .error y =>
      if h : x = y then .isTrue (by rw [h]) else .isFalse (by simp [h])
  | .ok _, .error _ => .isFalse (by simp)
  | .error _, .ok _ => .isFalse (by simp)

/-- Python exceptions that the body of `process_message` can raise.  All of
them are subclasses of `Exception` (see `isExceptionSubclass`). -/
inductive PyErr where
  | jsonDecodeError : PyErr
  | attributeError : PyErr
  | typeError : PyErr
  | valueError : PyErr
deriving DecidableEq

/-- Every error the body can raise derives from `Exception`, hence is
caught by the `except Exception` clause. -/
def isExceptionSubclass : PyErr → Bool
  | _ => true

/-- The configuration values as read from the environment by the getter
functions, already parsed (`int(...)` / `float(...)` applied). -/
structure Env where
  windowSize : ℕ
  stallThreshold : ℚ
  highThreshold : ℚ
  lowThreshold : ℚ
deriving DecidableEq

/-- Getter `get_rolling_window_size` against the environment in force. -/
def get_rolling_window_size (env : Env) : ℕ := env.windowSize

/-- Getter `get_stall_threshold` against the environment in force. -/
def get_stall_threshold (env : Env) : ℚ := env.stallThreshold

/-- Getter `get_heart_rate_threshold_high` against the environment in
force. -/
def get_heart_rate_threshold_high (env : Env) : ℚ := env.highThreshold

/-- Getter `get_heart_rate_threshold_low` against the environment in
force. -/
def get_heart_rate_threshold_low (env : Env) : ℚ := env.lowThreshold

/-- Observable log/alert events emitted while processing one message. -/
inductive Event where
  | highAlert : ℚ → Event
  | lowAlert : ℚ → Event
  | stallDetected : Event
  | invalidFormat : Event
  | decodeError : Event
  | processingError : Event
deriving DecidableEq

/-- Append to a `deque(maxlen = N)`: the value is appended and, when the
deque already holds `N` elements, the oldest (leftmost) element is
discarded.  Written uniformly as a left-drop so that it is also correct
for `maxlen = 0` (such a deque stays empty). -/
def push (maxlen : ℕ) (w : List ℚ) (v : ℚ) : List ℚ :=
  (w ++ [v]).drop (w.length + 1 - maxlen)

/-- The comparison Python `max()` performs: keep the current best unless
the next element is strictly greater. -/
def pymax (a b : ℚ) : ℚ := if b > a then b else a

/-- The comparison Python `min()` performs: keep the current best unless
the next element is strictly smaller. -/
def pymin (a b : ℚ) : ℚ := if b < a then b else a

/-- Python `max(w) - min(w)` as computed by `detect_stall` on a nonempty
window (left folds of the pairwise comparisons); junk value `0` on the
empty list, on which the code raises instead of computing it. -/
def hr_range : List ℚ → ℚ
  | [] => 0
  | x :: xs => xs.foldl pymax x - xs.foldl pymin x

/-- `detect_stall`: re-reads the window size, returns `False` while the
window is not yet full, otherwise compares `max - min` with the stall
threshold (inclusive).  `max()` on an empty sequence raises `ValueError`,
reachable only when the window is empty and the re-read size is `0`. -/
def detect_stall (rolling_window : List ℚ) (WINDOW_SIZE : ℕ) (thr : ℚ) :
    Except PyErr Bool :=
  if rolling_window.length < WINDOW_SIZE then
    .ok false
  else
    match rolling_window with
    | [] => .error .valueError
    | _ :: _ => .ok (decide (hr_range rolling_window ≤ thr))

/-- Alert classification of the specification (`AlertLevel`). -/
inductive AlertLevel where
  | NONE : AlertLevel
  | HIGH : AlertLevel
  | LOW : AlertLevel
deriving DecidableEq

/-- The branch structure of `alert_on_heart_rate_anomaly` on a numeric
heart rate: `if heart_rate > high: ... elif heart_rate < low: ...`. -/
def classify (heart_rate high low : ℚ) : AlertLevel :=
  if heart_rate > high then .HIGH
  else if heart_rate < low then .LOW
  else .NONE

/-- Events emitted by the alert branches for a numeric heart rate. -/
def alertEvents (high low heart_rate : ℚ) : List Event :=
  match classify heart_rate high low with
  | .HIGH => [.highAlert heart_rate]
  | .LOW => [.lowAlert heart_rate]
  | .NONE => []

/-- `alert_on_heart_rate_anomaly`: the first comparison
`heart_rate > high_threshold` raises `TypeError` when `heart_rate` is not
a number; otherwise the `if`/`elif` chain emits at most one warning. -/
def alert_on_heart_rate_anomaly (env : Env) (heart_rate : PyVal) :
    Except PyErr (List Event) :=
  match pyToNum heart_rate with
  | none => .error .typeError
  | some q =>
      .ok (alertEvents (get_heart_rate_threshold_high env)
            (get_heart_rate_threshold_low env) q)

/-- The `try` body of `process_message`.  `maxlen` is the capacity baked
into the deque at startup; `env` is the environment in force during this
call (the getters invoked by `alert_on_heart_rate_anomaly` and
`detect_stall` read it).  An error carries the window state at raise
time. -/
def process_message_body (maxlen : ℕ) (env : Env) (msg : Option PyVal)
    (rolling_window : List ℚ) :
    Except (PyErr × List ℚ) (List ℚ × List Event) :=
  match msg with
  | none => .error (.jsonDecodeError, rolling_window)
  | some data =>
    match data with
    | .dict fields =>
      let heart_rate := pyGet fields "heart_rate"
      let timestamp := pyGet fields "timestamp"
      if isPyNone heart_rate || isPyNone timestamp then
        .ok (rolling_window, [.invalidFormat])
      else
        match alert_on_heart_rate_anomaly env heart_rate with
        | .error e => .error (e, rolling_window)
        | .ok alertEvs =>
          match pyToNum heart_rate with
          | none => .error (.typeError, rolling_window)
          | some q =>
            let w2 := push maxlen rolling_window q
            match detect_stall w2 (get_rolling_window_size env)
                (get_stall_threshold env) with
            | .error e => .error (e, w2)
            | .ok stalled =>
              .ok (w2, alertEvs ++ (if stalled then [.stallDetected] else []))
    | _ => .error (.attributeError, rolling_window)

/-- `process_message`: the `try` body wrapped in
`except json.JSONDecodeError` and `except Exception`, both of which log
and return normally.  An exception not derived from `Exception` would
propagate (`.error`); no such exception exists in `PyErr`. -/
def process_message (maxlen : ℕ) (env : Env) (msg : Option PyVal)
    (rolling_window : List ℚ) : Except PyErr (List ℚ × List Event) :=
  match process_message_body maxlen env msg rolling_window with
  | .ok r => .ok r
  | .error (.jsonDecodeError, w2) => .ok (w2, [.decodeError])
  | .error (e, w2) =>
      if isExceptionSubclass e then .ok (w2, [.processingError])
      else .error e

/-- The consumer loop over a list of delivered messages under a fixed
environment: each message goes through `process_message` against the
window carried across calls; per-message event lists are collected.  An
uncaught exception would terminate the loop. -/
def run (maxlen : ℕ) (env : Env) (msgs : List (Option PyVal))
    (w : List ℚ) : List ℚ × List (List Event) :=
  match msgs with
  | [] => (w, [])
  | m :: rest =>
    match process_message maxlen env m w with
    | .ok (w2, evs) =>
      let r := run maxlen env rest w2
      (r.1, evs :: r.2)
    | .error _ => (w, [])

/-- The consumer loop with the environment read separately at each call:
step `(e, m)` processes message `m` under environment `e`, modelling that
the getters re-read the environment inside every call. -/
def run_with_envs (maxlen : ℕ) (steps : List (Env × Option PyVal))
    (w : List ℚ) : List ℚ × List (List Event) :=
  match steps with
  | [] => (w, [])
  | (e, m) :: rest =>
    match process_message maxlen e m w with
    | .ok (w2, evs) =>
      let r := run_with_envs maxlen rest w2
      (r.1, evs :: r.2)
    | .error _ => (w, [])

/-- The end-to-end scenario configuration of the specification: window
size 5, stall threshold 5.0, high alert threshold 120, low alert
threshold 40. -/
def scenarioEnv : Env := ⟨5, 5, 120, 40⟩

/-- An environment whose high alert threshold drifted to 60 after
startup, used to exhibit the per-message re-reads. -/
def driftedEnv : Env := ⟨5, 5, 60, 40⟩

/-- A well-formed reading message carrying the given heart rate. -/
def msgOf (v : ℚ) : Option PyVal :=
  some (.dict [("timestamp", .str "t"), ("heart_rate", .num v)])

/-! ## Rolling window lemmas -/

theorem push_length (maxlen : ℕ) (w : List ℚ) (v : ℚ) :
    (push maxlen w v).length = min (w.length + 1) maxlen := by
  simp [push]
  omega

theorem foldl_push_length (N : ℕ) :
    ∀ (vs w : List ℚ), w.length ≤ N →
      (vs.foldl (push N) w).length = min (w.length + vs.length) N := by
  intro vs
  induction vs with
  | nil => intro w hw; simp; omega
  | cons v vs ih =>
      intro w hw
      have h1 := push_length N w v
      have h2 := ih (push N w v) (by omega)
      simp only [List.foldl_cons]
      rw [h2, h1]
      simp only [List.length_cons]
      omega

theorem drop_append_drop (k m : ℕ) (a b : List ℚ) (h : k ≤ a.length) :
    (a.drop k ++ b).drop m = (a ++ b).drop (k + m) := by
  have e2 : m - (a.drop k).length = k + m - a.length := by
    simp only [List.length_drop]; omega
  rw [List.drop_append_eq_append_drop, List.drop_append_eq_append_drop,
    List.drop_drop, e2]

theorem foldl_push_eq (N : ℕ) :
    ∀ (vs w : List ℚ), w.length ≤ N →
      vs.foldl (push N) w = (w ++ vs).drop (w.length + vs.length - N) := by
  intro vs
  induction vs with
  | nil =>
      intro w hw
      simp [Nat.sub_eq_zero_of_le hw]
  | cons v vs ih =>
      intro w hw
      simp only [List.foldl_cons]
      rw [ih (push N w v) (by rw [push_length]; omega), push_length]
      unfold push
      rw [drop_append_drop _ _ _ _ (by simp)]
      have e3 : (w ++ [v]) ++ vs = w ++ v :: vs := by simp
      rw [e3]
      congr 1
      simp only [List.length_cons]
      omega

/-- Claim C2: for every sequence of pushes into a rolling window of
capacity `N`, the window size is at most `N` after every push; once the
size reaches `N` it stays exactly `N`; and a push into a full window
evicts the oldest element. -/
theorem window_capacity_invariant (N : ℕ) (vs : List ℚ) (hN : 0 < N) :
    (∀ n : ℕ, ((vs.take n).foldl (push N) []).length ≤ N) ∧
    (∀ n : ℕ, N ≤ n → n ≤ vs.length →
      ((vs.take n).foldl (push N) []).length = N) ∧
    (∀ (w : List ℚ) (v : ℚ), w.length = N → push N w v = w.tail ++ [v]) := by
  refine ⟨?_, ?_, ?_⟩
  · intro n
    rw [foldl_push_length N _ [] (by simp)]
    simp
  · intro n h1 h2
    rw [foldl_push_length N _ [] (by simp)]
    simp only [List.length_nil, List.length_take, Nat.zero_add]
    omega
  · intro w v hw
    unfold push
    rw [hw]
    have e : N + 1 - N = 1 := by omega
    rw [e]
    cases w with
    | nil => simp at hw; omega
    | cons x xs => simp

/-- Witness for Claim C2 at `N = 2`, `vs = [1, 2, 3]`. -/
theorem window_capacity_invariant_witness :
    ((([1, 2, 3] : List ℚ).take 3).foldl (push 2) []).length = 2 :=
  (window_capacity_invariant 2 [1, 2, 3] (by norm_num)).2.1 3
    (by norm_num) (by norm_num)

/-- Claim C7: pushing `v1 .. v(N+1)` into an empty window of capacity `N`
leaves the window containing exactly `v2 .. v(N+1)` in arrival order. -/
theorem fifo_eviction (N : ℕ) (vs : List ℚ) (h : vs.length = N + 1) :
    vs.foldl (push N) [] = vs.drop 1 := by
  have e : 0 + vs.length - N = 1 := by omega
  rw [foldl_push_eq N vs [] (by simp)]
  simp only [List.nil_append, List.length_nil, e]

/-- Witness for Claim C7 at `N = 2`, `vs = [10, 20, 30]`. -/
theorem fifo_eviction_witness :
    ([10, 20, 30] : List ℚ).foldl (push 2) [] = ([10, 20, 30] : List ℚ).drop 1 :=
  fifo_eviction 2 [10, 20, 30] (by norm_num)

/-! ## Fold characterisations of the max and min of a nonempty window -/

theorem pymax_cases (x y : ℚ) : pymax x y = x ∨ pymax x y = y := by
  unfold pymax; split
  · exact Or.inr rfl
  · exact Or.inl rfl

theorem le_pymax_left (x y : ℚ) : x ≤ pymax x y := by
  unfold pymax; split
  · linarith
  · linarith

theorem le_pymax_right (x y : ℚ) : y ≤ pymax x y := by
  unfold pymax; split
  · linarith
  · rename_i h
    linarith [not_lt.mp h]

theorem le_foldl_pymax :
    ∀ (xs : List ℚ) (a b : ℚ), a ≤ b → a ≤ xs.foldl pymax b := by
  intro xs
  induction xs with
  | nil => intro a b h; simpa using h
  | cons z zs ih =>
      intro a b h
      simp only [List.foldl_cons]
      exact ih a (pymax b z) (le_trans h (le_pymax_left b z))

theorem mem_le_foldl_pymax :
    ∀ (xs : List ℚ) (x y : ℚ), y ∈ x :: xs → y ≤ xs.foldl pymax x := by
  intro xs
  induction xs with
  | nil =>
      intro x y h
      simp at h
      simp [h]
  | cons z zs ih =>
      intro x y h
      simp only [List.foldl_cons]
      rcases List.mem_cons.mp h with h1 | h1
      · exact le_foldl_pymax zs y (pymax x z) (by rw [h1]; exact le_pymax_left x z)
      · rcases List.mem_cons.mp h1 with h2 | h2
        · exact le_foldl_pymax zs y (pymax x z) (by rw [h2]; exact le_pymax_right x z)
        · exact ih (pymax x z) y (List.mem_cons_of_mem _ h2)

theorem foldl_pymax_mem : ∀ (xs : List ℚ) (x : ℚ), xs.foldl pymax x ∈ x :: xs := by
  intro xs
  induction xs with
  | nil => intro x; simp
  | cons z zs ih =>
      intro x
      simp only [List.foldl_cons]
      rcases List.mem_cons.mp (ih (pymax x z)) with h1 | h1
      · rcases pymax_cases x z with h2 | h2 <;> rw [h1, h2]
        · exact List.mem_cons_self _ _
        · simp
      · simp only [List.mem_cons]
        exact Or.inr (Or.inr h1)

theorem pymin_cases (x y : ℚ) : pymin x y = x ∨ pymin x y = y := by
  unfold pymin; split
  · exact Or.inr rfl
  · exact Or.inl rfl

theorem pymin_le_left (x y : ℚ) : pymin x y ≤ x := by
  unfold pymin; split
  · linarith
  · linarith

theorem pymin_le_right (x y : ℚ) : pymin x y ≤ y := by
  unfold pymin; split
  · linarith
  · rename_i h
    linarith [not_lt.mp h]

theorem foldl_pymin_le :
    ∀ (xs : List ℚ) (a b : ℚ), b ≤ a → xs.foldl pymin b ≤ a := by
  intro xs
  induction xs with
  | nil => intro a b h; simpa using h
  | cons z zs ih =>
      intro a b h
      simp only [List.foldl_cons]
      exact ih a (pymin b z) (le_trans (pymin_le_left b z) h)

theorem foldl_pymin_le_mem :
    ∀ (xs : List ℚ) (x y : ℚ), y ∈ x :: xs → xs.foldl pymin x ≤ y := by
  intro xs
  induction xs with
  | nil =>
      intro x y h
      simp at h
      simp [h]
  | cons z zs ih =>
      intro x y h
      simp only [List.foldl_cons]
      rcases List.mem_cons.mp h with h1 | h1
      · exact foldl_pymin_le zs y (pymin x z) (by rw [h1]; exact pymin_le_left x z)
      · rcases List.mem_cons.mp h1 with h2 | h2
        · exact foldl_pymin_le zs y (pymin x z) (by rw [h2]; exact pymin_le_right x z)
        · exact ih (pymin x z) y (List.mem_cons_of_mem _ h2)

theorem foldl_pymin_mem : ∀ (xs : List ℚ) (x : ℚ), xs.foldl pymin x ∈ x :: xs := by
  intro xs
  induction xs with
  | nil => intro x; simp
  | cons z zs ih =>
      intro x
      simp only [List.foldl_cons]
      rcases List.mem_cons.mp (ih (pymin x z)) with h1 | h1
      · rcases pymin_cases x z with h2 | h2 <;> rw [h1, h2]
        · exact List.mem_cons_self _ _
        · simp
      · simp only [List.mem_cons]
        exact Or.inr (Or.inr h1)

/-- On a full window, `detect_stall` reaches the range comparison. -/
theorem detect_stall_full (w : List ℚ) (N : ℕ) (thr : ℚ) (hN : 0 < N)
    (hlen : w.length = N) :
    detect_stall w N thr = .ok (decide (hr_range w ≤ thr)) := by
  cases w with
  | nil => simp at hlen; omega
  | cons x xs =>
      unfold detect_stall
      rw [if_neg (by simp only [List.length_cons] at hlen ⊢; omega)]

/-! ## Stall detector claims -/

/-- Claim C3: on a full window (`size = N`), `detect_stall` signals a
stall (`STALLED`, returned as `true`) exactly when the window range
`max - min` is at most the threshold, boundary inclusive: a range equal
to the threshold is stalled, a range of threshold plus any positive
`ε` is stable (`false`).  The second conjunct certifies that `hr_range`
is really the difference of two window elements that dominates every
other pairwise difference, i.e. `max - min`. -/
theorem stall_boundary (w : List ℚ) (N : ℕ) (thr : ℚ)
    (hN : 0 < N) (hlen : w.length = N) :
    (detect_stall w N thr = .ok true ↔ hr_range w ≤ thr) ∧
    (∃ a ∈ w, ∃ b ∈ w, hr_range w = a - b ∧
      ∀ c ∈ w, ∀ d ∈ w, c - d ≤ a - b) ∧
    (hr_range w = thr → detect_stall w N thr = .ok true) ∧
    (∀ ε : ℚ, 0 < ε → hr_range w = thr + ε →
      detect_stall w N thr = .ok false) := by
  have hfull := detect_stall_full w N thr hN hlen
  cases w with
  | nil => simp at hlen; omega
  | cons x xs =>
      refine ⟨?_, ?_, ?_, ?_⟩
      · rw [hfull]
        constructor
        · intro h
          have := Except.ok.inj h
          exact of_decide_eq_true this
        · intro h
          rw [decide_eq_true h]
      · refine ⟨xs.foldl pymax x, foldl_pymax_mem xs x,
          xs.foldl pymin x, foldl_pymin_mem xs x, rfl, ?_⟩
        intro c hc d hd
        have h1 := mem_le_foldl_pymax xs x c hc
        have h2 := foldl_pymin_le_mem xs x d hd
        linarith
      · intro h
        rw [hfull, decide_eq_true (le_of_eq h)]
      · intro ε hε h
        rw [hfull, decide_eq_false (by rw [h]; linarith)]

/-- Witness for Claim C3 at the boundary: window `[10, 12]`, `N = 2`,
threshold `2`; the range is exactly `2` and a stall is reported. -/
theorem stall_boundary_witness :
    detect_stall ([10, 12] : List ℚ) 2 2 = .ok true :=
  (stall_boundary [10, 12] 2 2 (by norm_num) (by norm_num)).2.2.1
    (by norm_num [hr_range, pymax, pymin])

/-- Claim C4 counterexample: the code returns the plain boolean `False`
during warm-up, the same value it returns for a full stable window, so
the insufficient-data outcome is not a result distinct from the stable
outcome.  Here `[]` with `N = 1` is an insufficient-data evaluation and
`[0, 10]` with `N = 2`, threshold `5`, is a full stable evaluation (range
`10 > 5`), and both calls return the identical value. -/
theorem insufficient_data_counterexample :
    ([] : List ℚ).length < 1 ∧
    ([0, 10] : List ℚ).length = 2 ∧
    hr_range ([0, 10] : List ℚ) > 5 ∧
    detect_stall ([] : List ℚ) 1 0 = detect_stall ([0, 10] : List ℚ) 2 5 := by
  refine ⟨by norm_num, by norm_num, by norm_num [hr_range, pymax, pymin], ?_⟩
  rw [detect_stall_full [0, 10] 2 5 (by norm_num) (by norm_num)]
  rw [decide_eq_false (by norm_num [hr_range, pymax, pymin])]
  rfl

/-- Claim C4 (amended): for every window with `size < N`, `detect_stall`
returns `False` (not stalled) regardless of the threshold; the warm-up
state is not distinguished from the stable state in the return value
(only in the debug log). -/
theorem insufficient_data_returns_false (w : List ℚ) (N : ℕ) (thr : ℚ)
    (h : w.length < N) : detect_stall w N thr = .ok false := by
  unfold detect_stall
  rw [if_pos h]

/-- Witness for the amended Claim C4: window `[1]` with `N = 5`. -/
theorem insufficient_data_returns_false_witness :
    detect_stall ([1] : List ℚ) 5 3 = .ok false :=
  insufficient_data_returns_false [1] 5 3 (by norm_num)

/-! ## Anomaly alerter claims -/

/-- Claim C5: with `low ≤ high`, the classification always yields exactly
one of NONE, HIGH, LOW; it is HIGH iff `value > high` and LOW iff
`value < low`. -/
theorem alert_classification_totality (value high low : ℚ) (h : low ≤ high) :
    (classify value high low = .HIGH ∨ classify value high low = .LOW ∨
      classify value high low = .NONE) ∧
    (classify value high low = .HIGH ↔ value > high) ∧
    (classify value high low = .LOW ↔ value < low) := by
  unfold classify
  refine ⟨?_, ?_, ?_⟩
  · split_ifs <;> simp
  · split_ifs with h1 h2 <;> simp_all
  · split_ifs with h1 h2 <;> simp_all
    linarith

/-- Witness for Claim C5: value `130` against `high = 120`, `low = 40`
classifies HIGH. -/
theorem alert_classification_totality_witness :
    classify 130 120 40 = .HIGH :=
  (alert_classification_totality 130 120 40 (by norm_num)).2.1.mpr
    (by norm_num)

/-- Claim C6 counterexample: with the misconfiguration `high = 40`,
`low = 120` and value `70`, the value is below the low threshold yet the
code classifies HIGH, because the `elif` only evaluates the LOW condition
when the HIGH comparison fails; so whether LOW is classified does not
depend only on `value < low`. -/
theorem low_check_independent_counterexample :
    ¬ (classify 70 40 120 = .LOW ↔ (70 : ℚ) < 120) := by
  decide

/-- Claim C6 (amended): LOW is classified exactly when the HIGH check
fails (`value ≤ high`) and `value < low`; the LOW comparison is reached
only in the `elif` branch, so under the misconfiguration `low > high` a
value satisfying both conditions is classified HIGH, not LOW. -/
theorem low_check_after_high_check (value high low : ℚ) :
    classify value high low = .LOW ↔ (¬ value > high ∧ value < low) := by
  unfold classify
  split_ifs with h1 h2 <;> simp_all

/-! ## Message processor claims -/

theorem push_ne_nil (maxlen : ℕ) (w : List ℚ) (q : ℚ) (hm : 0 < maxlen) :
    push maxlen w q ≠ [] := by
  intro h
  have hl := push_length maxlen w q
  rw [h] at hl
  simp at hl
  omega

theorem detect_stall_ne_error (w : List ℚ) (N : ℕ) (thr : ℚ) (hw : w ≠ []) :
    ∃ b, detect_stall w N thr = .ok b := by
  unfold detect_stall
  split
  · exact ⟨false, rfl⟩
  · cases w with
    | nil => exact absurd rfl hw
    | cons x xs => exact ⟨_, rfl⟩

/-- Exhaustive result analysis of the `try` body: every raised error
carries the unchanged window; a normal result either leaves the window
unchanged (validation early-return) or pushes exactly the numeric
heart rate of a message that passed decoding, field validation and the
anomaly comparisons. -/
theorem body_spec (maxlen : ℕ) (env : Env) (msg : Option PyVal) (w : List ℚ)
    (hm : 0 < maxlen) :
    (∃ e, process_message_body maxlen env msg w = .error (e, w)) ∨
    process_message_body maxlen env msg w = .ok (w, [.invalidFormat]) ∨
    (∃ fields q evs, msg = some (.dict fields) ∧
      pyToNum (pyGet fields "heart_rate") = some q ∧
      isPyNone (pyGet fields "heart_rate") = false ∧
      isPyNone (pyGet fields "timestamp") = false ∧
      process_message_body maxlen env msg w = .ok (push maxlen w q, evs)) := by
  cases msg with
  | none => exact Or.inl ⟨.jsonDecodeError, rfl⟩
  | some data =>
    cases data with
    | pyNone => exact Or.inl ⟨.attributeError, rfl⟩
    | pyBool b => exact Or.inl ⟨.attributeError, rfl⟩
    | num q => exact Or.inl ⟨.attributeError, rfl⟩
    | str s => exact Or.inl ⟨.attributeError, rfl⟩
    | dict fields =>
      by_cases hc :
          (isPyNone (pyGet fields "heart_rate") ||
            isPyNone (pyGet fields "timestamp")) = true
      · refine Or.inr (Or.inl ?_)
        simp only [process_message_body, if_pos hc]
      · cases hn : pyToNum (pyGet fields "heart_rate") with
        | none =>
          refine Or.inl ⟨.typeError, ?_⟩
          simp only [process_message_body, alert_on_heart_rate_anomaly,
            if_neg hc, hn]
        | some q =>
          simp only [Bool.or_eq_true, not_or, Bool.not_eq_true] at hc
          obtain ⟨b, hd⟩ := detect_stall_ne_error (push maxlen w q)
            (get_rolling_window_size env) (get_stall_threshold env)
            (push_ne_nil maxlen w q hm)
          refine Or.inr (Or.inr ⟨fields, q,
            alertEvents (get_heart_rate_threshold_high env)
                (get_heart_rate_threshold_low env) q ++
              (if b then [.stallDetected] else []),
            rfl, hn, hc.1, hc.2, ?_⟩)
          simp only [process_message_body, alert_on_heart_rate_anomaly,
            hn, hd]
          rw [if_neg (by simp [hc.1, hc.2])]

/-- Claim C1: `process_message` returns normally on every input — every
exception the body can raise is a subclass of `Exception` and is caught
by the two handlers — and each of the three documented failure inputs (a
string that is not valid JSON, a payload missing `heart_rate`, a payload
missing `timestamp`) leaves the rolling window unchanged. -/
theorem process_message_resilience (maxlen : ℕ) (env : Env) (w : List ℚ) :
    (∀ msg : Option PyVal, ∃ r, process_message maxlen env msg w = .ok r) ∧
    process_message maxlen env none w = .ok (w, [.decodeError]) ∧
    (∀ fields, isPyNone (pyGet fields "heart_rate") = true →
      process_message maxlen env (some (.dict fields)) w =
        .ok (w, [.invalidFormat])) ∧
    (∀ fields, isPyNone (pyGet fields "timestamp") = true →
      process_message maxlen env (some (.dict fields)) w =
        .ok (w, [.invalidFormat])) := by
  refine ⟨?_, rfl, ?_, ?_⟩
  · intro msg
    unfold process_message
    cases hb : process_message_body maxlen env msg w with
    | ok r => exact ⟨r, rfl⟩
    | error p =>
      obtain ⟨e, w2⟩ := p
      cases e
      · exact ⟨(w2, [.decodeError]), rfl⟩
      · exact ⟨(w2, [.processingError]), rfl⟩
      · exact ⟨(w2, [.processingError]), rfl⟩
      · exact ⟨(w2, [.processingError]), rfl⟩
  · intro fields hf
    have hb : process_message_body maxlen env (some (.dict fields)) w =
        .ok (w, [.invalidFormat]) := by
      simp [process_message_body, hf]
    unfold process_message
    rw [hb]
  · intro fields ht
    have hb : process_message_body maxlen env (some (.dict fields)) w =
        .ok (w, [.invalidFormat]) := by
      simp [process_message_body, ht]
    unfold process_message
    rw [hb]

/-- Witness for Claim C1: a payload missing `heart_rate` against window
`[70]` returns normally with the window unchanged. -/
theorem process_message_resilience_witness :
    process_message 5 ⟨5, 5, 120, 40⟩
      (some (.dict [("timestamp", .str "t")])) [70] =
      .ok ([70], [.invalidFormat]) :=
  (process_message_resilience 5 ⟨5, 5, 120, 40⟩ [70]).2.2.1
    [("timestamp", .str "t")] rfl

/-- Claim C10: with a positive deque capacity, every failure raised while
processing a message — including a JSON-parseable payload that is not an
object and a payload whose `heart_rate` is present but not numeric —
occurs before the push, so `process_message` returns normally with the
window unchanged; and a returned window that differs from the input is
exactly a push of the numeric heart rate of a message that passed
decoding, validation and the anomaly comparison. -/
theorem failures_before_push (maxlen : ℕ) (env : Env) (msg : Option PyVal)
    (w : List ℚ) (hm : 0 < maxlen) :
    (∀ e w2, process_message_body maxlen env msg w = .error (e, w2) →
      w2 = w) ∧
    (∀ w2 evs, process_message maxlen env msg w = .ok (w2, evs) →
      w2 = w ∨ ∃ fields q, msg = some (.dict fields) ∧
        pyToNum (pyGet fields "heart_rate") = some q ∧
        isPyNone (pyGet fields "heart_rate") = false ∧
        isPyNone (pyGet fields "timestamp") = false ∧
        w2 = push maxlen w q) ∧
    (∀ s : String, process_message maxlen env (some (.str s)) w =
      .ok (w, [.processingError])) ∧
    (∀ fields s, pyGet fields "heart_rate" = .str s →
      isPyNone (pyGet fields "timestamp") = false →
      process_message maxlen env (some (.dict fields)) w =
        .ok (w, [.processingError])) := by
  refine ⟨?_, ?_, ?_, ?_⟩
  · intro e w2 hb
    rcases body_spec maxlen env msg w hm with ⟨e', h⟩ | h | ⟨_, _, _, _, _, _, _, h⟩ <;>
      rw [h] at hb
    · exact (Prod.mk.injEq .. ▸ Except.error.inj hb).2.symm
    · exact absurd hb (by simp)
    · exact absurd hb (by simp)
  · intro w2 evs hpm
    unfold process_message at hpm
    rcases body_spec maxlen env msg w hm with ⟨e', h⟩ | h |
        ⟨fields, q, evs', hmsg, hq, hhr, hts, h⟩ <;>
      rw [h] at hpm
    · cases e' <;>
        exact Or.inl (Prod.mk.injEq .. ▸ Except.ok.inj hpm).1.symm
    · exact Or.inl (Prod.mk.injEq .. ▸ Except.ok.inj hpm).1.symm
    · exact Or.inr ⟨fields, q, hmsg, hq, hhr, hts,
        (Prod.mk.injEq .. ▸ Except.ok.inj hpm).1.symm⟩
  · intro s
    rfl
  · intro fields s hf ht
    have hcond : (isPyNone (pyGet fields "heart_rate") ||
        isPyNone (pyGet fields "timestamp")) = false := by
      rw [hf, ht]
      rfl
    have hnum : pyToNum (pyGet fields "heart_rate") = none := by
      rw [hf]
      rfl
    have hb : process_message_body maxlen env (some (.dict fields)) w =
        .error (.typeError, w) := by
      simp only [process_message_body, alert_on_heart_rate_anomaly, hcond,
        hnum, Bool.false_eq_true, if_false]
    unfold process_message
    rw [hb]
    rfl

/-- Witness for Claim C10: a non-object payload (`"oops"` decodes to a
JSON string) is caught and leaves the window `[70]` unchanged. -/
theorem failures_before_push_witness :
    process_message 5 ⟨5, 5, 120, 40⟩ (some (.str "oops")) [70] =
      .ok ([70], [.processingError]) :=
  (failures_before_push 5 ⟨5, 5, 120, 40⟩ (some (.str "oops")) [70]
    (by norm_num)).2.2.1 "oops"

/-! ## End-to-end scenario and configuration claims -/

/-- One step of the pipeline on a well-formed reading: the window gains
the value (with eviction) and the events are the alert classification
followed by the stall flag. -/
theorem process_message_msgOf (maxlen : ℕ) (env : Env) (v : ℚ) (w : List ℚ)
    (b : Bool)
    (hd : detect_stall (push maxlen w v) env.windowSize env.stallThreshold =
      .ok b) :
    process_message maxlen env (msgOf v) w =
      .ok (push maxlen w v,
        alertEvents env.highThreshold env.lowThreshold v ++
          (if b then [.stallDetected] else [])) := by
  have hb0 : process_message_body maxlen env (msgOf v) w =
      match detect_stall (push maxlen w v) env.windowSize
          env.stallThreshold with
      | .error e => .error (e, push maxlen w v)
      | .ok stalled => .ok (push maxlen w v,
          alertEvents env.highThreshold env.lowThreshold v ++
            (if stalled then [.stallDetected] else [])) := rfl
  have hb : process_message_body maxlen env (msgOf v) w =
      .ok (push maxlen w v,
        alertEvents env.highThreshold env.lowThreshold v ++
          (if b then [.stallDetected] else [])) := by
    rw [hb0, hd]
  unfold process_message
  rw [hb]

/-- Claim C8: the end-to-end scenario.  With window size 5, stall
threshold 5.0, high 120, low 40: the readings 70, 71, 72, 70, 71 fill the
window with no alert and the fifth reading reports a stall (range 2 ≤ 5);
the sixth reading 130 raises a HIGH alert and no stall, leaving the
window exactly [71, 72, 70, 71, 130] in arrival order with range 60 and a
stable (not stalled) evaluation. -/
theorem end_to_end_scenario :
    run 5 scenarioEnv (([70, 71, 72, 70, 71] : List ℚ).map msgOf) [] =
      ([70, 71, 72, 70, 71],
        [[], [], [], [], [.stallDetected]]) ∧
    run 5 scenarioEnv (([70, 71, 72, 70, 71, 130] : List ℚ).map msgOf) [] =
      ([71, 72, 70, 71, 130],
        [[], [], [], [], [.stallDetected], [.highAlert 130]]) ∧
    hr_range ([71, 72, 70, 71, 130] : List ℚ) = 60 ∧
    detect_stall ([71, 72, 70, 71, 130] : List ℚ) 5 5 = .ok false := by
  have d5 : detect_stall ([70, 71, 72, 70, 71] : List ℚ) 5 5 = .ok true := by
    rw [detect_stall_full _ 5 5 (by norm_num) (by norm_num),
      decide_eq_true (by norm_num [hr_range, pymax, pymin])]
  have d6 : detect_stall ([71, 72, 70, 71, 130] : List ℚ) 5 5 = .ok false := by
    rw [detect_stall_full _ 5 5 (by norm_num) (by norm_num),
      decide_eq_false (by norm_num [hr_range, pymax, pymin])]
  have s1 : process_message 5 scenarioEnv (msgOf 70) [] = .ok ([70], []) := by
    rw [process_message_msgOf 5 scenarioEnv 70 [] false rfl]
    rfl
  have s2 : process_message 5 scenarioEnv (msgOf 71) [70] =
      .ok ([70, 71], []) := by
    rw [process_message_msgOf 5 scenarioEnv 71 [70] false rfl]
    rfl
  have s3 : process_message 5 scenarioEnv (msgOf 72) [70, 71] =
      .ok ([70, 71, 72], []) := by
    rw [process_message_msgOf 5 scenarioEnv 72 [70, 71] false rfl]
    rfl
  have s4 : process_message 5 scenarioEnv (msgOf 70) [70, 71, 72] =
      .ok ([70, 71, 72, 70], []) := by
    rw [process_message_msgOf 5 scenarioEnv 70 [70, 71, 72] false rfl]
    rfl
  have s5 : process_message 5 scenarioEnv (msgOf 71) [70, 71, 72, 70] =
      .ok ([70, 71, 72, 70, 71], [.stallDetected]) := by
    rw [process_message_msgOf 5 scenarioEnv 71 [70, 71, 72, 70] true d5]
    rfl
  have s6 : process_message 5 scenarioEnv (msgOf 130) [70, 71, 72, 70, 71] =
      .ok ([71, 72, 70, 71, 130], [.highAlert 130]) := by
    rw [process_message_msgOf 5 scenarioEnv 130 [70, 71, 72, 70, 71] false d6]
    rfl
  refine ⟨?_, ?_, by norm_num [hr_range, pymax, pymin], d6⟩
  · simp only [List.map_cons, List.map_nil, run, s1, s2, s3, s4, s5]
  · simp only [List.map_cons, List.map_nil, run, s1, s2, s3, s4, s5, s6]

/-- Claim C9 counterexample: the tunables are re-read from the
environment inside every call, not fixed at startup.  With the same
startup configuration and two identical readings of 70, letting the high
threshold drift to 60 before the second message changes the outcome of
the anomaly check, so the per-message checks do not use the startup
values. -/
theorem config_resolved_once_counterexample :
    run_with_envs 5 [(scenarioEnv, msgOf 70), (driftedEnv, msgOf 70)] [] ≠
      run 5 scenarioEnv [msgOf 70, msgOf 70] [] := by
  decide

/-- Claim C9 (amended): only the deque capacity is fixed at startup; the
window size, stall threshold and alert thresholds used by the
per-message checks are the environment values read during that call.
Consequently the startup values govern every check only under the
assumption that the environment never changes after startup, in which
case the loop coincides with the startup-configured loop. -/
theorem config_stable_env (maxlen : ℕ) (env : Env) :
    ∀ (steps : List (Env × Option PyVal)) (w : List ℚ),
      (∀ s ∈ steps, s.1 = env) →
      run_with_envs maxlen steps w = run maxlen env (steps.map Prod.snd) w := by
  intro steps
  induction steps with
  | nil => intro w _; rfl
  | cons s rest ih =>
      intro w h
      obtain ⟨e, m⟩ := s
      have he : e = env := h (e, m) (List.mem_cons_self _ _)
      subst he
      simp only [run_with_envs, run, List.map_cons]
      cases hp : process_message maxlen e m w with
      | ok r =>
          obtain ⟨w2, evs⟩ := r
          simp only [ih w2 (fun s hs => h s (List.mem_cons_of_mem _ hs))]
      | error e2 => rfl

/-- Witness for the amended Claim C9: a one-step loop whose only
per-call environment equals the startup environment. -/
theorem config_stable_env_witness :
    run_with_envs 5 [(scenarioEnv, msgOf 70)] [] =
      run 5 scenarioEnv [msgOf 70] [] := by
  have h := config_stable_env 5 scenarioEnv [(scenarioEnv, msgOf 70)] []
    (by intro s hs; rw [List.mem_singleton] at hs; rw [hs])
  simpa using h

end HeartMonitor
